import Mathlib

/-!
Verification development for the `image-color-scheme` repository.

Shallow embedding of the two source modules:
  * `src/image_color_scheme/color_extractor.py` — the `Color` value type and
    `extract_colors`;
  * `src/image_color_scheme/palette_generator.py` — `PaletteType` and
    `generate_palette` with its five rule functions.

Python floats are modelled as exact rationals (`ℚ`), Python ints as `ℤ`
(indices and counts as `ℕ` where the source only ever sees naturals),
Python exceptions as `Except`.  `int(x)` on a float truncates toward zero,
`x % 1.0` is `Int.fract`, and `a % b` on ints with `b > 0` agrees with
`Int.emod`.
-/

set_option maxRecDepth 10000

namespace ImageColorScheme

/-- Python `int(x)` applied to a float: truncation toward zero. -/
def pyint (x : ℚ) : ℤ := if 0 ≤ x then ⌊x⌋ else ⌈x⌉

/-- A pixel: one RGB triple of Python ints (source: rows of the `pixels` array). -/
def Pixel : Type := ℤ × ℤ × ℤ

instance : DecidableEq Pixel := instDecidableEqProd

/-! ## CPython `colorsys`, as called by the source (exact-rational model) -/

namespace colorsys

/-- CPython `colorsys.rgb_to_hsv(r, g, b)`.  `(h/6.0) % 1.0` is `Int.fract (h/6)`. -/
def rgb_to_hsv (r g b : ℚ) : ℚ × ℚ × ℚ :=
  let maxc := max r (max g b)
  let minc := min r (min g b)
  let v := maxc
  if minc = maxc then (0, 0, v)
  else
    let s := (maxc - minc) / maxc
    let rc := (maxc - r) / (maxc - minc)
    let gc := (maxc - g) / (maxc - minc)
    let bc := (maxc - b) / (maxc - minc)
    let h := if r = maxc then bc - gc
      else if g = maxc then 2.0 + rc - bc
      else 4.0 + gc - rc
    (Int.fract (h / 6.0), s, v)

/-- CPython `colorsys.hsv_to_rgb(h, s, v)`.  `int(h*6.0)` truncates toward zero
(`pyint`); `i % 6` on ints with the positive modulus agrees with `Int.emod`,
so the final `else` arm is the `i == 5` case. -/
def hsv_to_rgb (h s v : ℚ) : ℚ × ℚ × ℚ :=
  if s = 0.0 then (v, v, v)
  else
    let i0 := pyint (h * 6.0)
    let f := h * 6.0 - i0
    let p := v * (1.0 - s)
    let q := v * (1.0 - s * f)
    let t := v * (1.0 - s * (1.0 - f))
    let i := i0 % 6
    if i = 0 then (v, t, p)
    else if i = 1 then (q, v, p)
    else if i = 2 then (p, q, t)
    else if i = 3 then (p, q, v)
    else if i = 4 then (t, p, v)
    else (v, p, q)

end colorsys

/-! ## The `Color` value type (color_extractor.py, lines 11-47) -/

/-- `Color.__init__` stores `tuple(map(int, rgb))`; on int inputs this is the
identity, so a `Color` is just its integer RGB triple.  No range check is
performed by the constructor. -/
structure Color where
  rgb : ℤ × ℤ × ℤ
deriving DecidableEq

/-- `Color.rgb_normalized`: each channel divided by 255. -/
def Color.rgb_normalized (c : Color) : ℚ × ℚ × ℚ :=
  (c.rgb.1 / 255, c.rgb.2.1 / 255, c.rgb.2.2 / 255)

/-- `Color.hsv`: `colorsys.rgb_to_hsv(*self.rgb_normalized)`. -/
def Color.hsv (c : Color) : ℚ × ℚ × ℚ :=
  colorsys.rgb_to_hsv c.rgb_normalized.1 c.rgb_normalized.2.1 c.rgb_normalized.2.2

/-! ### Python `f"{x:02x}"` formatting, needed by `Color.hex` -/

/-- One lowercase hex digit: `0`-`9` then `a`-`f`. -/
def hexDigit (n : ℕ) : Char :=
  if n < 10 then Char.ofNat (48 + n) else Char.ofNat (87 + n)

/-- Hex digits of `n` (most significant first, empty for 0), with explicit fuel
so that the kernel can evaluate it; `fuel = n + 1` always suffices. -/
def hexDigitsAux : ℕ → ℕ → List Char
  | 0, _ => []
  | fuel + 1, n => if n = 0 then [] else hexDigitsAux fuel (n / 16) ++ [hexDigit (n % 16)]

/-- Lowercase hex representation of a natural number, as Python `"%x" % n`. -/
def hexStr (n : ℕ) : String :=
  if n = 0 then "0" else String.mk (hexDigitsAux (n + 1) n)

/-- Python `f"{n:02x}"`: lowercase hex, zero-padded to total width 2; a negative
number is rendered as a minus sign followed by the hex digits of its absolute
value (the sign counts toward the width, so no padding ever applies there). -/
def fmt02x (n : ℤ) : String :=
  if 0 ≤ n then
    if (hexStr n.toNat).length < 2 then "0" ++ hexStr n.toNat else hexStr n.toNat
  else "-" ++ hexStr n.natAbs

/-- `Color.hex`: the string `f"#{r:02x}{g:02x}{b:02x}"`. -/
def Color.hex (c : Color) : String :=
  "#" ++ fmt02x c.rgb.1 ++ fmt02x c.rgb.2.1 ++ fmt02x c.rgb.2.2

/-- Value of one lowercase hex digit character, `none` on anything else. -/
def hexVal (c : Char) : Option ℕ :=
  if 48 ≤ c.toNat ∧ c.toNat ≤ 57 then some (c.toNat - 48)
  else if 97 ≤ c.toNat ∧ c.toNat ≤ 102 then some (c.toNat - 87)
  else none

/-- Parse a `#rrggbb` string (lowercase 6-hex-digit form) back to an integer
triple; `none` when the string is not of that exact shape. -/
def parseHexColor (s : String) : Option (ℤ × ℤ × ℤ) :=
  match s.toList with
  | ['#', c1, c2, c3, c4, c5, c6] =>
    match hexVal c1, hexVal c2, hexVal c3, hexVal c4, hexVal c5, hexVal c6 with
    | some a, some b, some c, some d, some e, some f =>
      some ((16 * a + b : ℕ), (16 * c + d : ℕ), (16 * e + f : ℕ))
    | _, _, _, _, _, _ => none
  | _ => none

/-! ## Palette generation (palette_generator.py) -/

/-- The five palette types of the `PaletteType` enum (lines 11-19). -/
inductive PaletteType
  | MONOCHROMATIC
  | ANALOGOUS
  | COMPLEMENTARY
  | TRIADIC
  | TETRADIC
deriving DecidableEq

/-- The `palette_type` argument of `generate_palette`: either a member of the
`PaletteType` enum (each handled by an `elif` arm) or any other Python value,
modelled by the string that `f"{palette_type}"` renders it as. -/
inductive PaletteSelector
  | enum (t : PaletteType)
  | unknown (shown : String)
deriving DecidableEq

/-- Hue of `_generate_analogous` at index `i` (line 84-85):
`(h + (i - num_colors // 2) * 0.05) % 1.0`. -/
def analogousHue (h : ℚ) (n i : ℕ) : ℚ :=
  Int.fract (h + (((i : ℤ) - ((n / 2 : ℕ) : ℤ) : ℤ) : ℚ) * 0.05)

/-- Hue of `_generate_complementary` at index `i` (lines 101-113):
`comp_h = (h + 0.5) % 1.0`; first half `(h + i*0.02) % 1.0`, second half
`(comp_h + (i - num_colors//2)*0.02) % 1.0`. -/
def complementaryHue (h : ℚ) (n i : ℕ) : ℚ :=
  if i < n / 2 then Int.fract (h + (i : ℚ) * 0.02)
  else Int.fract (Int.fract (h + 0.5) + (((i : ℤ) - ((n / 2 : ℕ) : ℤ) : ℤ) : ℚ) * 0.02)

/-- Hue of `_generate_triadic` at index `i` (lines 131-143). -/
def triadicHue (h : ℚ) (i : ℕ) : ℚ :=
  if i % 3 = 0 then h
  else if i % 3 = 1 then Int.fract (h + 1 / 3)
  else Int.fract (h + 2 / 3)

/-- Hue of `_generate_tetradic` at index `i` (lines 164-179). -/
def tetradicHue (h : ℚ) (i : ℕ) : ℚ :=
  if i % 4 = 0 then h
  else if i % 4 = 1 then Int.fract (h + 0.25)
  else if i % 4 = 2 then Int.fract (h + 0.5)
  else Int.fract (h + 0.75)

/-- Saturation of `_generate_monochromatic` (line 62). -/
def monoS (s : ℚ) (n i : ℕ) : ℚ :=
  max 0.1 (min 1.0 (s * (0.5 + (i : ℚ) / (n : ℚ))))

/-- Value of `_generate_monochromatic` (line 63). -/
def monoV (v : ℚ) (n i : ℕ) : ℚ :=
  max 0.2 (min 1.0 (v * (0.5 + (i : ℚ) / (n : ℚ))))

/-- Saturation of `_generate_complementary` (lines 109 and 114). -/
def complementaryS (s : ℚ) (n i : ℕ) : ℚ :=
  if i < n / 2 then max 0.2 (min 1.0 (s * (0.7 + (i : ℚ) / ((n : ℚ) * 2))))
  else max 0.2 (min 1.0 (s * (0.7 + (((i : ℤ) - ((n / 2 : ℕ) : ℤ) : ℤ) : ℚ) / ((n : ℚ) * 2))))

/-- Value of `_generate_complementary` (lines 110 and 115). -/
def complementaryV (v : ℚ) (n i : ℕ) : ℚ :=
  if i < n / 2 then max 0.3 (min 1.0 (v * (0.8 + (i : ℚ) / ((n : ℚ) * 2))))
  else max 0.3 (min 1.0 (v * (0.8 + (((i : ℤ) - ((n / 2 : ℕ) : ℤ) : ℤ) : ℚ) / ((n : ℚ) * 2))))

/-- Saturation of `_generate_triadic` (lines 146-147), group index `i // 3`. -/
def triadicS (s : ℚ) (i : ℕ) : ℚ :=
  max 0.3 (min 1.0 (s * (0.8 + ((i / 3 : ℕ) : ℚ) * 0.1)))

/-- Value of `_generate_triadic` (line 148). -/
def triadicV (v : ℚ) (i : ℕ) : ℚ :=
  max 0.4 (min 1.0 (v * (0.9 + ((i / 3 : ℕ) : ℚ) * 0.05)))

/-- Saturation of `_generate_tetradic` (lines 182-183), group index `i // 4`. -/
def tetradicS (s : ℚ) (i : ℕ) : ℚ :=
  max 0.3 (min 1.0 (s * (0.8 + ((i / 4 : ℕ) : ℚ) * 0.1)))

/-- Value of `_generate_tetradic` (line 184). -/
def tetradicV (v : ℚ) (i : ℕ) : ℚ :=
  max 0.4 (min 1.0 (v * (0.9 + ((i / 4 : ℕ) : ℚ) * 0.05)))

/-- `rgb = colorsys.hsv_to_rgb(...)`; `rgb_255 = tuple(int(c * 255) for c in rgb)`;
`Color(rgb_255)` (the shared tail of every rule, e.g. lines 66-69). -/
def hsvToColor (h s v : ℚ) : Color :=
  let rgb := colorsys.hsv_to_rgb h s v
  ⟨(pyint (rgb.1 * 255), pyint (rgb.2.1 * 255), pyint (rgb.2.2 * 255))⟩

/-- `_generate_monochromatic(base_color, num_colors)` (lines 54-71). -/
def generate_monochromatic (base : Color) (n : ℕ) : List Color :=
  (List.range n).map fun i =>
    hsvToColor base.hsv.1 (monoS base.hsv.2.1 n i) (monoV base.hsv.2.2 n i)

/-- `_generate_analogous(base_color, num_colors)` (lines 74-93): saturation and
value are passed through unchanged. -/
def generate_analogous (base : Color) (n : ℕ) : List Color :=
  (List.range n).map fun i =>
    hsvToColor (analogousHue base.hsv.1 n i) base.hsv.2.1 base.hsv.2.2

/-- `_generate_complementary(base_color, num_colors)` (lines 96-123). -/
def generate_complementary (base : Color) (n : ℕ) : List Color :=
  (List.range n).map fun i =>
    hsvToColor (complementaryHue base.hsv.1 n i)
      (complementaryS base.hsv.2.1 n i) (complementaryV base.hsv.2.2 n i)

/-- `_generate_triadic(base_color, num_colors)` (lines 126-156). -/
def generate_triadic (base : Color) (n : ℕ) : List Color :=
  (List.range n).map fun i =>
    hsvToColor (triadicHue base.hsv.1 i) (triadicS base.hsv.2.1 i) (triadicV base.hsv.2.2 i)

/-- `_generate_tetradic(base_color, num_colors)` (lines 159-192). -/
def generate_tetradic (base : Color) (n : ℕ) : List Color :=
  (List.range n).map fun i =>
    hsvToColor (tetradicHue base.hsv.1 i) (tetradicS base.hsv.2.1 i) (tetradicV base.hsv.2.2 i)

/-- `generate_palette(colors, palette_type, num_colors)` (lines 22-51):
empty `colors` raises `ValueError("No colors provided")`; the base color is
`colors[0]`; an argument that is no `PaletteType` member falls through every
`elif` to `ValueError(f"Unknown palette type: {palette_type}")`. -/
def generate_palette (colors : List Color) (palette_type : PaletteSelector)
    (num_colors : ℕ) : Except String (List Color) :=
  match colors with
  | [] => Except.error "No colors provided"
  | base :: _ =>
    match palette_type with
    | PaletteSelector.enum PaletteType.MONOCHROMATIC =>
      Except.ok (generate_monochromatic base num_colors)
    | PaletteSelector.enum PaletteType.ANALOGOUS =>
      Except.ok (generate_analogous base num_colors)
    | PaletteSelector.enum PaletteType.COMPLEMENTARY =>
      Except.ok (generate_complementary base num_colors)
    | PaletteSelector.enum PaletteType.TRIADIC =>
      Except.ok (generate_triadic base num_colors)
    | PaletteSelector.enum PaletteType.TETRADIC =>
      Except.ok (generate_tetradic base num_colors)
    | PaletteSelector.unknown shown =>
      Except.error ("Unknown palette type: " ++ shown)

/-- The `new_h` value each rule computes at index `i` (the hue before the
conversion back to RGB), collected per palette type. -/
def typeHue : PaletteType → ℚ → ℕ → ℕ → ℚ
  | PaletteType.MONOCHROMATIC, h, _, _ => h
  | PaletteType.ANALOGOUS, h, n, i => analogousHue h n i
  | PaletteType.COMPLEMENTARY, h, n, i => complementaryHue h n i
  | PaletteType.TRIADIC, h, _, i => triadicHue h i
  | PaletteType.TETRADIC, h, _, i => tetradicHue h i

/-- The list of pre-conversion hues a palette rule uses for a given base color,
palette type and `num_colors`. -/
def paletteHues (base : Color) (t : PaletteType) (n : ℕ) : List ℚ :=
  (List.range n).map (typeHue t base.hsv.1 n)

/-! ## Color extraction (color_extractor.py, lines 50-123) -/

/-- Python exceptions distinguished by the source's `except ImportError` clause. -/
inductive PyErr
  | importError (msg : String)
  | valueError (msg : String)
deriving DecidableEq

/-- Squared RGB distance between two pixels, `np.sum((p - q) ** 2)`. -/
def sqDist (p q : Pixel) : ℤ :=
  (p.1 - q.1) ^ 2 + (p.2.1 - q.2.1) ^ 2 + (p.2.2 - q.2.2) ^ 2

/-- Row sum of the pairwise squared-distance matrix (line 109-110): total
squared distance from `p` to every sampled pixel (including `p` itself). -/
def totalSqDist (p : Pixel) (l : List Pixel) : ℤ :=
  (l.map (sqDist p)).sum

/-- First element minimizing `f`, as `np.argmin` keeps the first index
attaining the minimum; `none` on the empty list. -/
def argminBy (f : Pixel → ℤ) : List Pixel → Option Pixel
  | [] => none
  | p :: ps =>
    match argminBy f ps with
    | none => some p
    | some q => if f p ≤ f q then some p else some q

/-- The fallback loop of `extract_colors` (lines 103-120): up to `num_colors`
rounds; stop when the sample is exhausted; each round takes the approximate
medoid of the current sample and keeps only the pixels at squared distance
strictly above 100 from it (`> 100`, line 117, which also removes the chosen
pixel itself).  `Color(color)` on an integer pixel stores the pixel unchanged. -/
def fallbackColors : ℕ → List Pixel → List Color
  | 0, _ => []
  | k + 1, sampled =>
    match argminBy (fun p => totalSqDist p sampled) sampled with
    | none => []
    | some chosen =>
      Color.mk chosen :: fallbackColors k (sampled.filter (fun p => 100 < sqDist p chosen))

/-- Line 123 with `Color.__init__`: `Color(color)` on a float cluster center
applies `tuple(map(int, rgb))`, i.e. truncation toward zero per channel. -/
def colorOfCentroid (c : ℚ × ℚ × ℚ) : Color :=
  ⟨(pyint c.1, pyint c.2.1, pyint c.2.2)⟩

/-- Modelled from the spec: the cluster centroid computed by the external
k-means dependency (scikit-learn's `KMeans.cluster_centers_`, not part of this
repository) — "each cluster's centroid (component-wise mean)". -/
def centroid (cluster : List Pixel) : ℚ × ℚ × ℚ :=
  let n : ℚ := cluster.length
  let sr : ℤ := (cluster.map (fun p : Pixel => p.1)).sum
  let sg : ℤ := (cluster.map (fun p : Pixel => p.2.1)).sum
  let sb : ℤ := (cluster.map (fun p : Pixel => p.2.2)).sum
  ((sr : ℚ) / n, (sg : ℚ) / n, (sb : ℚ) / n)

/-- The spec's words for the reported channel value: centroid component
"rounded to nearest integer, clamped to [0,255]". -/
def specRoundClampChannel (q : ℚ) : ℤ :=
  max 0 (min 255 (round q))

/-- The spec's words for the reported `Color`: each channel of the centroid
rounded to nearest and clamped to [0,255]. -/
def specRoundClampColor (c : ℚ × ℚ × ℚ) : Color :=
  ⟨(specRoundClampChannel c.1, specRoundClampChannel c.2.1, specRoundClampChannel c.2.2)⟩

/-- `extract_colors` after the pixel array is built (lines 89-123).
`sklearnAvailable` models whether the scikit-learn package can be imported:
line 89 executes `from sklearn.cluster import KMeans` BEFORE the
`try:` of line 92, so a missing package raises `ImportError` right there.
`kmeansCenters` is the external collaborator `KMeans(...).fit` /
`cluster_centers_` (lines 93-95), a parameter because its code is not part of
this repository; whatever it raises propagates unless it is an `ImportError`,
the only class the `except` of line 96 catches, in which case the fallback of
lines 97-120 runs on `sample` (the `np.random.choice` sample of line 99,
likewise a parameter because it is drawn randomly). -/
def extract_colors_model (sklearnAvailable : Bool)
    (kmeansCenters : List Pixel → ℕ → Except PyErr (List (ℚ × ℚ × ℚ)))
    (sample : List Pixel) (pixels : List Pixel) (num_colors : ℕ) :
    Except PyErr (List Color) :=
  if sklearnAvailable = false then
    Except.error (PyErr.importError "No module named sklearn")
  else
    match kmeansCenters pixels num_colors with
    | Except.ok centers => Except.ok (centers.map colorOfCentroid)
    | Except.error (PyErr.importError _) => Except.ok (fallbackColors num_colors sample)
    | Except.error e => Except.error e

/-! ## Predicates used by the claims -/

/-- Every channel of the color is an integer in [0, 255]. -/
def inRangeColor (c : Color) : Prop :=
  0 ≤ c.rgb.1 ∧ c.rgb.1 ≤ 255 ∧ 0 ≤ c.rgb.2.1 ∧ c.rgb.2.1 ≤ 255 ∧
    0 ≤ c.rgb.2.2 ∧ c.rgb.2.2 ≤ 255

instance (c : Color) : Decidable (inRangeColor c) := by
  unfold inRangeColor
  infer_instance

/-- Distance between two hues on the circle of circumference 1. -/
def circDist (a b : ℚ) : ℚ :=
  min (Int.fract (a - b)) (1 - Int.fract (a - b))

/-! ## General lemmas -/

/-- The head of a map over `List.range n` is the image of 0 when `n ≥ 1`. -/
theorem head_map_range {α : Type} (f : ℕ → α) (n : ℕ) (hn : 1 ≤ n) :
    ((List.range n).map f).head? = some (f 0) := by
  cases n with
  | zero => omega
  | succ m => rw [List.range_succ_eq_map]; simp

/-- A clamp `max lo (min one x)` lands in [0, 1] as soon as `0 ≤ lo ≤ 1` and
`one ≤ 1`, regardless of `x`. -/
theorem clampMem (lo one x : ℚ) (h0 : 0 ≤ lo) (hlo : lo ≤ 1) (hone : one ≤ 1) :
    0 ≤ max lo (min one x) ∧ max lo (min one x) ≤ 1 :=
  ⟨le_trans h0 (le_max_left _ _), max_le hlo (le_trans (min_le_left _ _) hone)⟩

/-- The hue `rgb_to_hsv` reports is always in [0, 1): it is either the literal
0 of the gray branch or a value of `% 1.0`. -/
theorem hsv_hue_mem (c : Color) : 0 ≤ c.hsv.1 ∧ c.hsv.1 < 1 := by
  unfold Color.hsv colorsys.rgb_to_hsv
  dsimp only
  split
  · exact ⟨le_refl 0, by norm_num⟩
  · exact ⟨Int.fract_nonneg _, Int.fract_lt_one _⟩

/-- Circular hue distance from a point to itself is zero. -/
theorem circDist_self (a : ℚ) : circDist a a = 0 := by
  unfold circDist
  rw [sub_self, Int.fract_zero]
  norm_num

/-- Shifting a hue by `δ ∈ [0, 1)` and wrapping moves it at most `δ` along the
circle. -/
theorem circDist_fract_add (c δ : ℚ) (h0 : 0 ≤ δ) (h1 : δ < 1) :
    circDist (Int.fract (c + δ)) c ≤ δ := by
  unfold circDist
  have h2 : Int.fract (c + δ) - c = δ - (⌊c + δ⌋ : ℚ) := by
    rw [Int.fract]; ring
  rw [h2, Int.fract_sub_int, Int.fract_eq_self.mpr ⟨h0, h1⟩]
  exact min_le_left _ _

/-- `getD` on a map over `List.range n` at an index below `n`. -/
theorem getD_map_range {α : Type} (f : ℕ → α) (n i : ℕ) (d : α) (h : i < n) :
    ((List.range n).map f).getD i d = f i := by
  rw [List.getD_eq_getElem _ _ (by simpa using h)]
  simp

/-! ## Claim theorems -/

/-- C3 counterexample: on the empty color list the code raises with the
message "No colors provided" (capital N), not the claimed lower-case
"no colors provided". -/
theorem generate_palette_empty_message_cx :
    generate_palette [] (PaletteSelector.enum PaletteType.MONOCHROMATIC) 5 =
      Except.error "No colors provided" ∧
    "No colors provided" ≠ "no colors provided" :=
  ⟨rfl, by decide⟩

/-- C3 (amended): `generate_palette` fails if and only if the color list is
empty (message "No colors provided") or the palette type is not one of the
five enum members (message naming the unknown type); on a non-empty list and
a recognized variant it returns normally. -/
theorem generate_palette_error_iff (colors : List Color) (pt : PaletteSelector) (n : ℕ) :
    ((∃ e, generate_palette colors pt n = Except.error e) ↔
      colors = [] ∨ ∃ s, pt = PaletteSelector.unknown s) ∧
    (colors = [] → generate_palette colors pt n = Except.error "No colors provided") ∧
    (∀ s, colors ≠ [] → pt = PaletteSelector.unknown s →
      generate_palette colors pt n = Except.error ("Unknown palette type: " ++ s)) ∧
    (∀ t, colors ≠ [] → pt = PaletteSelector.enum t →
      ∃ l, generate_palette colors pt n = Except.ok l) := by
  refine ⟨⟨?_, ?_⟩, ?_, ?_, ?_⟩
  · intro ⟨e, he⟩
    cases colors with
    | nil => exact Or.inl rfl
    | cons base rest =>
      cases pt with
      | unknown s => exact Or.inr ⟨s, rfl⟩
      | enum t => cases t <;> simp [generate_palette] at he
  · intro hor
    cases hor with
    | inl h => subst h; exact ⟨"No colors provided", rfl⟩
    | inr h =>
      obtain ⟨s, rfl⟩ := h
      cases colors with
      | nil => exact ⟨"No colors provided", rfl⟩
      | cons base rest => exact ⟨"Unknown palette type: " ++ s, rfl⟩
  · intro h; subst h; rfl
  · intro s hne hpt
    subst hpt
    cases colors with
    | nil => exact absurd rfl hne
    | cons base rest => rfl
  · intro t hne hpt
    subst hpt
    cases colors with
    | nil => exact absurd rfl hne
    | cons base rest => cases t <;> exact ⟨_, rfl⟩

/-- C3 witness: a recognized variant on a non-empty list returns normally, and
an unknown type fails naming it. -/
theorem generate_palette_error_iff_witness :
    (∃ l, generate_palette [⟨(1, 2, 3)⟩] (PaletteSelector.enum PaletteType.TETRADIC) 7 =
      Except.ok l) ∧
    generate_palette [⟨(1, 2, 3)⟩] (PaletteSelector.unknown "bogus_type") 3 =
      Except.error ("Unknown palette type: " ++ "bogus_type") :=
  ⟨(generate_palette_error_iff [⟨(1, 2, 3)⟩] _ 7).2.2.2 PaletteType.TETRADIC
      (by simp) rfl,
   (generate_palette_error_iff [⟨(1, 2, 3)⟩] _ 3).2.2.1 "bogus_type" (by simp) rfl⟩

/-- C4: on a non-empty color list, a recognized palette type and any
`num_colors = n ≥ 1`, `generate_palette` returns an ordered list of exactly
`n` colors. -/
theorem generate_palette_length (colors : List Color) (t : PaletteType) (n : ℕ)
    (hne : colors ≠ []) (hn : 1 ≤ n) :
    ∃ l, generate_palette colors (PaletteSelector.enum t) n = Except.ok l ∧
      l.length = n := by
  cases colors with
  | nil => exact absurd rfl hne
  | cons base rest =>
    cases t <;>
      exact ⟨_, rfl, by
        simp [generate_monochromatic, generate_analogous, generate_complementary,
          generate_triadic, generate_tetradic]⟩

/-- C4 witness: four triadic colors from one base color. -/
theorem generate_palette_length_witness :
    ∃ l, generate_palette [⟨(12, 200, 9)⟩] (PaletteSelector.enum PaletteType.TRIADIC) 4 =
      Except.ok l ∧ l.length = 4 :=
  generate_palette_length [⟨(12, 200, 9)⟩] PaletteType.TRIADIC 4 (by simp) (by norm_num)

/-- C5: when scikit-learn is unavailable, `extract_colors` raises
`ImportError` at line 89 (`from sklearn.cluster import KMeans`), which runs
BEFORE the `try:` of line 92 — so the fallback sampling path of lines 97-120
never executes and no colors are returned, for every pixel set, sample and
`num_colors`. -/
theorem missing_sklearn_raises
    (kmeansCenters : List Pixel → ℕ → Except PyErr (List (ℚ × ℚ × ℚ)))
    (sample pixels : List Pixel) (num_colors : ℕ) :
    extract_colors_model false kmeansCenters sample pixels num_colors =
      Except.error (PyErr.importError "No module named sklearn") := rfl

/-- C6: with `num_colors < 1` and any clustering collaborator meeting the
spec's contract (it rejects a cluster count below one with an
invalid-argument error), `extract_colors` propagates that invalid-argument
error — only `ImportError` is caught, so the failure is fail-fast with no
partial result. -/
theorem num_colors_invalid_fails
    (kmeansCenters : List Pixel → ℕ → Except PyErr (List (ℚ × ℚ × ℚ)))
    (sample pixels : List Pixel) (num_colors : ℕ)
    (hlt : num_colors < 1)
    (hcontract : ∀ px k, k < 1 →
      ∃ m, kmeansCenters px k = Except.error (PyErr.valueError m)) :
    ∃ m, extract_colors_model true kmeansCenters sample pixels num_colors =
      Except.error (PyErr.valueError m) := by
  obtain ⟨m, hm⟩ := hcontract pixels num_colors hlt
  exact ⟨m, by simp [extract_colors_model, hm]⟩

/-- C6 witness: a collaborator that rejects `n_clusters = 0`, applied to one
black pixel. -/
theorem num_colors_invalid_fails_witness :
    ∃ m, extract_colors_model true
      (fun _ k => if k < 1 then Except.error (PyErr.valueError "n_clusters out of range")
        else Except.ok []) [] [((0 : ℤ), (0 : ℤ), (0 : ℤ))] 0 =
      Except.error (PyErr.valueError m) :=
  num_colors_invalid_fails _ [] [((0 : ℤ), (0 : ℤ), (0 : ℤ))] 0 (by norm_num)
    (fun px k hk => ⟨"n_clusters out of range", by simp [hk]⟩)

/-- Correctness of one lowercase hex digit: parsing it back gives its value. -/
theorem hexVal_hexDigit_fin : ∀ d : Fin 16, hexVal (hexDigit d.val) = some d.val := by decide

/-- For a byte value, Python `f"{n:02x}"` yields exactly the two lowercase hex
digits of `n`. -/
theorem fmt02x_byte_fin : ∀ n : Fin 256,
    (fmt02x ((n.val : ℕ) : ℤ)).toList = [hexDigit (n.val / 16), hexDigit (n.val % 16)] := by
  decide

/-- Hypothesis form of `hexVal_hexDigit_fin`. -/
theorem hexVal_hexDigit (d : ℕ) (h : d < 16) : hexVal (hexDigit d) = some d :=
  hexVal_hexDigit_fin ⟨d, h⟩

/-- Hypothesis form of `fmt02x_byte_fin`. -/
theorem fmt02x_byte (n : ℕ) (h : n < 256) :
    (fmt02x (n : ℤ)).toList = [hexDigit (n / 16), hexDigit (n % 16)] :=
  fmt02x_byte_fin ⟨n, h⟩

/-- C8: for channels in [0, 255], parsing the lowercase `#rrggbb` string
`Color(rgb).hex` back to integers reproduces the original triple exactly. -/
theorem hex_roundtrip (r g b : ℤ) (hr0 : 0 ≤ r) (hr1 : r ≤ 255) (hg0 : 0 ≤ g)
    (hg1 : g ≤ 255) (hb0 : 0 ≤ b) (hb1 : b ≤ 255) :
    parseHexColor (Color.hex ⟨(r, g, b)⟩) = some (r, g, b) := by
  obtain ⟨nr, rfl⟩ : ∃ m : ℕ, r = (m : ℤ) := ⟨r.toNat, (Int.toNat_of_nonneg hr0).symm⟩
  obtain ⟨ng, rfl⟩ : ∃ m : ℕ, g = (m : ℤ) := ⟨g.toNat, (Int.toNat_of_nonneg hg0).symm⟩
  obtain ⟨nb, rfl⟩ : ∃ m : ℕ, b = (m : ℤ) := ⟨b.toNat, (Int.toNat_of_nonneg hb0).symm⟩
  have hnr : nr < 256 := by omega
  have hng : ng < 256 := by omega
  have hnb : nb < 256 := by omega
  have happ : ∀ a b : String, (a ++ b).toList = a.toList ++ b.toList := fun a b => rfl
  have hlist : (Color.hex ⟨((nr : ℤ), (ng : ℤ), (nb : ℤ))⟩).toList =
      ['#', hexDigit (nr / 16), hexDigit (nr % 16), hexDigit (ng / 16), hexDigit (ng % 16),
        hexDigit (nb / 16), hexDigit (nb % 16)] := by
    show ("#" ++ fmt02x (nr : ℤ) ++ fmt02x (ng : ℤ) ++ fmt02x (nb : ℤ)).toList = _
    rw [happ, happ, happ, fmt02x_byte nr hnr, fmt02x_byte ng hng, fmt02x_byte nb hnb]
    rfl
  unfold parseHexColor
  rw [hlist]
  simp only [hexVal_hexDigit (nr / 16) (by omega), hexVal_hexDigit (nr % 16) (by omega),
    hexVal_hexDigit (ng / 16) (by omega), hexVal_hexDigit (ng % 16) (by omega),
    hexVal_hexDigit (nb / 16) (by omega), hexVal_hexDigit (nb % 16) (by omega),
    Option.some.injEq, Prod.mk.injEq]
  refine ⟨?_, ?_, ?_⟩ <;>
    exact_mod_cast congrArg (fun m : ℕ => (m : ℤ)) (Nat.div_add_mod _ 16)

/-- C8 witness: the concrete triple (171, 31, 5) round-trips through `#ab1f05`. -/
theorem hex_roundtrip_witness :
    parseHexColor (Color.hex ⟨(171, 31, 5)⟩) = some (171, 31, 5) :=
  hex_roundtrip 171 31 5 (by norm_num) (by norm_num) (by norm_num) (by norm_num)
    (by norm_num) (by norm_num)

/-- C10: the constructor performs no range validation — it stores every
integer triple unchanged — and for the out-of-range channel 256 the `hex`
property yields `#1000000`, a 7-hex-digit string that is not of the
`#rrggbb` form (its parse fails). -/
theorem color_no_validation :
    (∀ t : ℤ × ℤ × ℤ, (Color.mk t).rgb = t) ∧
    (Color.mk (256, 0, 0)).hex = "#1000000" ∧
    parseHexColor (Color.mk (256, 0, 0)).hex = none := by
  refine ⟨fun t => rfl, by decide, by decide⟩

/-- C1 counterexample: for the base color (255, 0, 0) — hue 0 — the Analogous
rule with `num_colors = 5` puts hue `(0 - 5//2)*0.05 mod 1 = 0.9 ≠ 0` at
index 0, so index 0 does not reproduce the base hue for every rule. -/
theorem index0_hue_cx :
    (paletteHues ⟨(255, 0, 0)⟩ PaletteType.ANALOGOUS 5).head? = some (9/10) ∧
    (⟨(255, 0, 0)⟩ : Color).hsv.1 = 0 ∧ ((9 : ℚ)/10) ≠ 0 := by
  have h1 : (⟨(255, 0, 0)⟩ : Color).hsv = (0, 1, 1) := by
    simp only [Color.hsv, Color.rgb_normalized, colorsys.rgb_to_hsv,
      max_def, min_def, Int.fract]
    norm_num
  refine ⟨?_, by rw [h1], by norm_num⟩
  simp only [paletteHues, h1]
  norm_num [List.range_succ, typeHue, analogousHue, Int.fract, Int.floor_eq_iff]

/-- C1 (amended): index 0 reproduces the base hue for the Monochromatic,
Triadic and Tetradic rules at every `n ≥ 1` and for Complementary at every
`n ≥ 2`, while Complementary at `n = 1` puts the complement hue
`(h + 0.5) mod 1` at index 0; for Analogous the index-0 hue is
`(h - (n//2)*0.05) mod 1`, which reproduces the base hue at `n = 1` but not
in general (e.g. not at `n = 5`, see the counterexample). -/
theorem index0_hue_by_rule (base : Color) (n : ℕ) (_hb : inRangeColor base) (hn : 1 ≤ n) :
    (paletteHues base PaletteType.MONOCHROMATIC n).head? = some base.hsv.1 ∧
    (paletteHues base PaletteType.TRIADIC n).head? = some base.hsv.1 ∧
    (paletteHues base PaletteType.TETRADIC n).head? = some base.hsv.1 ∧
    (2 ≤ n → (paletteHues base PaletteType.COMPLEMENTARY n).head? = some base.hsv.1) ∧
    (n = 1 → (paletteHues base PaletteType.COMPLEMENTARY n).head? =
      some (Int.fract (base.hsv.1 + 0.5))) ∧
    (n = 1 → (paletteHues base PaletteType.ANALOGOUS n).head? = some base.hsv.1) ∧
    (paletteHues base PaletteType.ANALOGOUS n).head? =
      some (Int.fract (base.hsv.1 - ((n / 2 : ℕ) : ℚ) * 0.05)) := by
  have hfr : Int.fract base.hsv.1 = base.hsv.1 := Int.fract_eq_self.mpr (hsv_hue_mem base)
  refine ⟨?_, ?_, ?_, ?_, ?_, ?_, ?_⟩
  · simp only [paletteHues]; rw [head_map_range _ n hn]
    simp [typeHue]
  · simp only [paletteHues]; rw [head_map_range _ n hn]
    simp [typeHue, triadicHue]
  · simp only [paletteHues]; rw [head_map_range _ n hn]
    simp [typeHue, tetradicHue]
  · intro h2n
    simp only [paletteHues]; rw [head_map_range _ n hn]
    have hlt : 0 < n / 2 := by omega
    simp only [typeHue, complementaryHue, if_pos hlt]
    norm_num [hfr]
  · rintro rfl
    simp only [paletteHues]; rw [head_map_range _ 1 hn]
    simp only [typeHue, complementaryHue]
    norm_num [Int.fract_fract]
  · rintro rfl
    simp only [paletteHues]; rw [head_map_range _ 1 hn]
    simp only [typeHue, analogousHue]
    norm_num [hfr]
  · simp only [paletteHues]; rw [head_map_range _ n hn]
    simp only [typeHue, analogousHue]
    generalize (n / 2 : ℕ) = k
    congr 1
    push_cast
    ring

/-- C1 witness: the monochromatic rule on base (255, 0, 0) with `n = 2` keeps
the base hue at index 0. -/
theorem index0_hue_by_rule_witness :
    (paletteHues ⟨(255, 0, 0)⟩ PaletteType.MONOCHROMATIC 2).head? =
      some (⟨(255, 0, 0)⟩ : Color).hsv.1 :=
  (index0_hue_by_rule ⟨(255, 0, 0)⟩ 2 (by decide) (by norm_num)).1

/-- C7 counterexample: with base (255, 0, 0) — hue 0 — and `num_colors = 6`,
the complementary rule at index 5 uses hue `0.54`, at circular distance
`0.04` from the complement hue `0.5`, which is not within `0.02`. -/
theorem complementary_tolerance_cx :
    (paletteHues ⟨(255, 0, 0)⟩ PaletteType.COMPLEMENTARY 6).getD 5 0 = 27/50 ∧
    Int.fract ((⟨(255, 0, 0)⟩ : Color).hsv.1 + 0.5) = 1/2 ∧
    ¬(circDist (27/50) (1/2) ≤ 0.02) ∧ circDist (27/50) (1/2) = 1/25 := by
  have h1 : (⟨(255, 0, 0)⟩ : Color).hsv = (0, 1, 1) := by
    simp only [Color.hsv, Color.rgb_normalized, colorsys.rgb_to_hsv,
      max_def, min_def, Int.fract]
    norm_num
  refine ⟨?_, ?_, ?_, ?_⟩
  · simp only [paletteHues, h1]
    norm_num [List.range_succ, typeHue, complementaryHue, List.getD, Int.fract,
      Int.floor_eq_iff]
  · rw [h1]; norm_num [Int.fract, Int.floor_eq_iff]
  · norm_num [circDist, Int.fract, Int.floor_eq_iff]
  · norm_num [circDist, Int.fract, Int.floor_eq_iff]

/-- C7 (amended): for `num_colors = 6`, the complementary rule's hues at
indices 3, 4 and 5 lie within `0.04` (not `0.02`) of `(h + 0.5) mod 1` —
the offsets are exactly 0, 0.02 and 0.04. -/
theorem complementary_second_half_hue (base : Color) (i : ℕ) (h3 : 3 ≤ i) (h5 : i ≤ 5) :
    circDist ((paletteHues base PaletteType.COMPLEMENTARY 6).getD i 0)
      (Int.fract (base.hsv.1 + 0.5)) ≤ 1/25 := by
  interval_cases i
  · simp only [paletteHues]
    rw [getD_map_range _ 6 3 _ (by norm_num)]
    simp only [typeHue]
    have hb3 : complementaryHue base.hsv.1 6 3 = Int.fract (base.hsv.1 + 0.5) := by
      norm_num [complementaryHue, Int.fract_fract]
    rw [hb3, circDist_self]
    norm_num
  · simp only [paletteHues]
    rw [getD_map_range _ 6 4 _ (by norm_num)]
    simp only [typeHue]
    have hb4 : complementaryHue base.hsv.1 6 4 =
        Int.fract (Int.fract (base.hsv.1 + 0.5) + 1/50) := by
      norm_num [complementaryHue]
    rw [hb4]
    exact le_trans (circDist_fract_add _ _ (by norm_num) (by norm_num)) (by norm_num)
  · simp only [paletteHues]
    rw [getD_map_range _ 6 5 _ (by norm_num)]
    simp only [typeHue]
    have hb5 : complementaryHue base.hsv.1 6 5 =
        Int.fract (Int.fract (base.hsv.1 + 0.5) + 1/25) := by
      norm_num [complementaryHue]
    rw [hb5]
    exact le_trans (circDist_fract_add _ _ (by norm_num) (by norm_num)) (by norm_num)

/-- C7 witness: index 4 of the complementary palette on base (255, 0, 0). -/
theorem complementary_second_half_hue_witness :
    circDist ((paletteHues ⟨(255, 0, 0)⟩ PaletteType.COMPLEMENTARY 6).getD 4 0)
      (Int.fract ((⟨(255, 0, 0)⟩ : Color).hsv.1 + 0.5)) ≤ 1/25 :=
  complementary_second_half_hue ⟨(255, 0, 0)⟩ 4 (by norm_num) (by norm_num)

/-- Python `int()` is the floor on nonnegative values. -/
theorem pyint_eq_floor (x : ℚ) (h : 0 ≤ x) : pyint x = ⌊x⌋ := if_pos h

/-- Truncating a rational in [0, 255] gives an integer in [0, 255]. -/
theorem pyint_mem (x : ℚ) (h0 : 0 ≤ x) (h255 : x ≤ 255) :
    0 ≤ pyint x ∧ pyint x ≤ 255 := by
  rw [pyint_eq_floor x h0]
  constructor
  · exact Int.floor_nonneg.mpr h0
  · calc ⌊x⌋ ≤ ⌊(255 : ℚ)⌋ := Int.floor_le_floor h255
      _ = 255 := by norm_num

/-- A list of integers in [0, 255] sums to a value in [0, 255·length]. -/
theorem sum_bounds (l : List ℤ) (h : ∀ x ∈ l, 0 ≤ x ∧ x ≤ 255) :
    0 ≤ l.sum ∧ l.sum ≤ 255 * l.length := by
  induction l with
  | nil => simp
  | cons a t ih =>
    have ha := h a (List.mem_cons_self a t)
    have ht := ih (fun x hx => h x (List.mem_cons_of_mem a hx))
    simp only [List.sum_cons, List.length_cons]
    constructor
    · linarith [ht.1]
    · push_cast
      linarith [ht.2]

/-- The mean of a non-empty list of integers in [0, 255] lies in [0, 255]. -/
theorem mean_mem (l : List ℤ) (hne : l ≠ []) (h : ∀ x ∈ l, 0 ≤ x ∧ x ≤ 255) :
    0 ≤ ((l.sum : ℚ) / (l.length : ℚ)) ∧ ((l.sum : ℚ) / (l.length : ℚ)) ≤ 255 := by
  have hlen : 0 < (l.length : ℚ) := by
    have : 0 < l.length := List.length_pos.mpr hne
    exact_mod_cast this
  have hb := sum_bounds l h
  constructor
  · apply div_nonneg _ (le_of_lt hlen)
    exact_mod_cast hb.1
  · rw [div_le_iff₀ hlen]
    have : (l.sum : ℚ) ≤ 255 * (l.length : ℚ) := by exact_mod_cast hb.2
    linarith

/-- C2 counterexample: a cluster of one black and one white pixel has centroid
(127.5, 127.5, 127.5); the code (`Color(color)`, which truncates with `int()`)
reports (127, 127, 127), while the spec's "rounded to nearest integer,
clamped" would report (128, 128, 128). -/
theorem centroid_rounding_cx :
    colorOfCentroid (centroid ([((0:ℤ), (0:ℤ), (0:ℤ)),
        ((255:ℤ), (255:ℤ), (255:ℤ))] : List Pixel)) = ⟨(127, 127, 127)⟩ ∧
    specRoundClampColor (centroid ([((0:ℤ), (0:ℤ), (0:ℤ)),
        ((255:ℤ), (255:ℤ), (255:ℤ))] : List Pixel)) = ⟨(128, 128, 128)⟩ ∧
    (⟨(127, 127, 127)⟩ : Color) ≠ ⟨(128, 128, 128)⟩ := by
  have hc : centroid ([((0:ℤ), (0:ℤ), (0:ℤ)), ((255:ℤ), (255:ℤ), (255:ℤ))] : List Pixel) =
      (255/2, 255/2, 255/2) := by
    simp only [centroid, List.map_cons, List.map_nil, List.sum_cons, List.sum_nil,
      List.length_cons, List.length_nil]
    norm_num
  refine ⟨?_, ?_, by decide⟩
  · rw [hc]
    simp only [colorOfCentroid, pyint]
    norm_num [Int.floor_eq_iff]
  · rw [hc]
    simp only [specRoundClampColor, specRoundClampChannel, round_eq]
    norm_num [Int.floor_eq_iff]

/-- C2 (amended): on the k-means path each reported `Color` is the cluster's
component-wise mean centroid with each channel truncated toward zero (Python
`int()`, the floor for these nonnegative means) — not rounded to nearest; for
in-range pixels the result lies in [0, 255] without any clamp. -/
theorem centroid_truncated (cluster : List Pixel) (hne : cluster ≠ [])
    (hin : ∀ p ∈ cluster, 0 ≤ p.1 ∧ p.1 ≤ 255 ∧ 0 ≤ p.2.1 ∧ p.2.1 ≤ 255 ∧
      0 ≤ p.2.2 ∧ p.2.2 ≤ 255) :
    (colorOfCentroid (centroid cluster)).rgb =
      (⌊(centroid cluster).1⌋, ⌊(centroid cluster).2.1⌋, ⌊(centroid cluster).2.2⌋) ∧
    inRangeColor (colorOfCentroid (centroid cluster)) := by
  have hne1 : cluster.map (fun p : Pixel => p.1) ≠ [] := by simpa using hne
  have hne2 : cluster.map (fun p : Pixel => p.2.1) ≠ [] := by simpa using hne
  have hne3 : cluster.map (fun p : Pixel => p.2.2) ≠ [] := by simpa using hne
  have hm1 := mean_mem (cluster.map (fun p : Pixel => p.1)) hne1 (by
    intro x hx
    obtain ⟨p, hp, rfl⟩ := List.mem_map.mp hx
    exact ⟨(hin p hp).1, (hin p hp).2.1⟩)
  have hm2 := mean_mem (cluster.map (fun p : Pixel => p.2.1)) hne2 (by
    intro x hx
    obtain ⟨p, hp, rfl⟩ := List.mem_map.mp hx
    exact ⟨(hin p hp).2.2.1, (hin p hp).2.2.2.1⟩)
  have hm3 := mean_mem (cluster.map (fun p : Pixel => p.2.2)) hne3 (by
    intro x hx
    obtain ⟨p, hp, rfl⟩ := List.mem_map.mp hx
    exact ⟨(hin p hp).2.2.2.2.1, (hin p hp).2.2.2.2.2⟩)
  rw [List.length_map] at hm1 hm2 hm3
  constructor
  · simp only [colorOfCentroid, centroid]
    rw [pyint_eq_floor _ hm1.1, pyint_eq_floor _ hm2.1, pyint_eq_floor _ hm3.1]
  · simp only [colorOfCentroid, centroid, inRangeColor]
    have h1 := pyint_mem _ hm1.1 hm1.2
    have h2 := pyint_mem _ hm2.1 hm2.2
    have h3 := pyint_mem _ hm3.1 hm3.2
    exact ⟨h1.1, h1.2, h2.1, h2.2, h3.1, h3.2⟩

/-- C2 witness: a concrete two-pixel cluster with means (10.5, 20.5, 30.5). -/
theorem centroid_truncated_witness :
    (colorOfCentroid (centroid ([((10:ℤ), (20:ℤ), (30:ℤ)),
        ((11:ℤ), (21:ℤ), (31:ℤ))] : List Pixel))).rgb =
      (⌊(centroid ([((10:ℤ), (20:ℤ), (30:ℤ)), ((11:ℤ), (21:ℤ), (31:ℤ))] : List Pixel)).1⌋,
       ⌊(centroid ([((10:ℤ), (20:ℤ), (30:ℤ)), ((11:ℤ), (21:ℤ), (31:ℤ))] : List Pixel)).2.1⌋,
       ⌊(centroid ([((10:ℤ), (20:ℤ), (30:ℤ)), ((11:ℤ), (21:ℤ), (31:ℤ))] : List Pixel)).2.2⌋) ∧
    inRangeColor (colorOfCentroid (centroid ([((10:ℤ), (20:ℤ), (30:ℤ)),
        ((11:ℤ), (21:ℤ), (31:ℤ))] : List Pixel))) :=
  centroid_truncated _ (by simp) (by decide)

/-- For channels in [0, 1], `rgb_to_hsv` reports saturation and value in [0, 1]. -/
theorem rgb_to_hsv_sv_mem (r g b : ℚ) (hr : 0 ≤ r) (hr1 : r ≤ 1) (hg : 0 ≤ g)
    (hg1 : g ≤ 1) (hb : 0 ≤ b) (hb1 : b ≤ 1) :
    (0 ≤ (colorsys.rgb_to_hsv r g b).2.1 ∧ (colorsys.rgb_to_hsv r g b).2.1 ≤ 1) ∧
    (0 ≤ (colorsys.rgb_to_hsv r g b).2.2 ∧ (colorsys.rgb_to_hsv r g b).2.2 ≤ 1) := by
  have hvmax0 : 0 ≤ max r (max g b) := le_trans hr (le_max_left _ _)
  have hvmax1 : max r (max g b) ≤ 1 := max_le hr1 (max_le hg1 hb1)
  unfold colorsys.rgb_to_hsv
  dsimp only
  split
  · exact ⟨⟨le_refl 0, by norm_num⟩, ⟨hvmax0, hvmax1⟩⟩
  · rename_i hne
    have hminc0 : 0 ≤ min r (min g b) := le_min hr (le_min hg hb)
    have hmm : min r (min g b) ≤ max r (max g b) :=
      le_trans (min_le_left _ _) (le_max_left _ _)
    have hlt : min r (min g b) < max r (max g b) := lt_of_le_of_ne hmm hne
    have hmaxpos : 0 < max r (max g b) := lt_of_le_of_lt hminc0 hlt
    refine ⟨⟨?_, ?_⟩, ⟨hvmax0, hvmax1⟩⟩
    · exact div_nonneg (by linarith) (le_of_lt hmaxpos)
    · rw [div_le_one hmaxpos]
      linarith

/-- Saturation and value of an in-range color lie in [0, 1]. -/
theorem color_hsv_sv_mem (c : Color) (hc : inRangeColor c) :
    (0 ≤ c.hsv.2.1 ∧ c.hsv.2.1 ≤ 1) ∧ (0 ≤ c.hsv.2.2 ∧ c.hsv.2.2 ≤ 1) := by
  obtain ⟨h1, h2, h3, h4, h5, h6⟩ := hc
  unfold Color.hsv Color.rgb_normalized
  dsimp only
  apply rgb_to_hsv_sv_mem
  · positivity
  · rw [div_le_one (by norm_num)]; exact_mod_cast h2
  · positivity
  · rw [div_le_one (by norm_num)]; exact_mod_cast h4
  · positivity
  · rw [div_le_one (by norm_num)]; exact_mod_cast h6

/-- With `h ≥ 0`, `s ∈ [0, 1]` and `v ∈ [0, 1]`, every channel `hsv_to_rgb`
produces lies in [0, 1]: `p`, `q` and `t` are all of the form `v·(1 - x)` with
`x ∈ [0, 1]`. -/
theorem hsv_to_rgb_mem (h s v : ℚ) (hh0 : 0 ≤ h) (hs0 : 0 ≤ s) (hs1 : s ≤ 1)
    (hv0 : 0 ≤ v) (hv1 : v ≤ 1) :
    (0 ≤ (colorsys.hsv_to_rgb h s v).1 ∧ (colorsys.hsv_to_rgb h s v).1 ≤ 1) ∧
    (0 ≤ (colorsys.hsv_to_rgb h s v).2.1 ∧ (colorsys.hsv_to_rgb h s v).2.1 ≤ 1) ∧
    (0 ≤ (colorsys.hsv_to_rgb h s v).2.2 ∧ (colorsys.hsv_to_rgb h s v).2.2 ≤ 1) := by
  have hi : pyint (h * 6.0) = ⌊h * 6.0⌋ := if_pos (by positivity)
  have hf0 : 0 ≤ h * 6.0 - (pyint (h * 6.0) : ℚ) := by
    rw [hi]
    have := Int.fract_nonneg (h * 6.0)
    rw [Int.fract] at this
    linarith
  have hf1 : h * 6.0 - (pyint (h * 6.0) : ℚ) ≤ 1 := by
    rw [hi]
    have := Int.fract_lt_one (h * 6.0)
    rw [Int.fract] at this
    linarith
  have hp : 0 ≤ v * (1.0 - s) ∧ v * (1.0 - s) ≤ 1 :=
    ⟨mul_nonneg hv0 (by linarith), by nlinarith⟩
  have hq : 0 ≤ v * (1.0 - s * (h * 6.0 - (pyint (h * 6.0) : ℚ))) ∧
      v * (1.0 - s * (h * 6.0 - (pyint (h * 6.0) : ℚ))) ≤ 1 := by
    constructor
    · apply mul_nonneg hv0
      nlinarith
    · nlinarith
  have ht : 0 ≤ v * (1.0 - s * (1.0 - (h * 6.0 - (pyint (h * 6.0) : ℚ)))) ∧
      v * (1.0 - s * (1.0 - (h * 6.0 - (pyint (h * 6.0) : ℚ)))) ≤ 1 := by
    constructor
    · apply mul_nonneg hv0
      nlinarith
    · nlinarith
  unfold colorsys.hsv_to_rgb
  dsimp only
  split
  · exact ⟨⟨hv0, hv1⟩, ⟨hv0, hv1⟩, ⟨hv0, hv1⟩⟩
  · split_ifs
    · exact ⟨⟨hv0, hv1⟩, ⟨ht.1, ht.2⟩, ⟨hp.1, hp.2⟩⟩
    · exact ⟨⟨hq.1, hq.2⟩, ⟨hv0, hv1⟩, ⟨hp.1, hp.2⟩⟩
    · exact ⟨⟨hp.1, hp.2⟩, ⟨hq.1, hq.2⟩, ⟨ht.1, ht.2⟩⟩
    · exact ⟨⟨hp.1, hp.2⟩, ⟨hq.1, hq.2⟩, ⟨hv0, hv1⟩⟩
    · exact ⟨⟨ht.1, ht.2⟩, ⟨hp.1, hp.2⟩, ⟨hv0, hv1⟩⟩
    · exact ⟨⟨hv0, hv1⟩, ⟨hp.1, hp.2⟩, ⟨hq.1, hq.2⟩⟩

/-- `int(c * 255)` of a channel `c ∈ [0, 1]` is an integer in [0, 255]. -/
theorem pyint255_mem (x : ℚ) (h0 : 0 ≤ x) (h1 : x ≤ 1) :
    0 ≤ pyint (x * 255) ∧ pyint (x * 255) ≤ 255 :=
  pyint_mem _ (mul_nonneg h0 (by norm_num)) (by nlinarith)

/-- The conversion tail shared by all five rules produces in-range colors. -/
theorem hsvToColor_mem (h s v : ℚ) (hh0 : 0 ≤ h) (hs0 : 0 ≤ s) (hs1 : s ≤ 1)
    (hv0 : 0 ≤ v) (hv1 : v ≤ 1) : inRangeColor (hsvToColor h s v) := by
  obtain ⟨⟨a0, a1⟩, ⟨b0, b1⟩, ⟨c0, c1⟩⟩ := hsv_to_rgb_mem h s v hh0 hs0 hs1 hv0 hv1
  unfold hsvToColor inRangeColor
  dsimp only
  exact ⟨(pyint255_mem _ a0 a1).1, (pyint255_mem _ a0 a1).2,
    (pyint255_mem _ b0 b1).1, (pyint255_mem _ b0 b1).2,
    (pyint255_mem _ c0 c1).1, (pyint255_mem _ c0 c1).2⟩

/-- The analogous hue is a `% 1.0` value, hence in [0, 1). -/
theorem analogousHue_mem (h : ℚ) (n i : ℕ) :
    0 ≤ analogousHue h n i ∧ analogousHue h n i < 1 :=
  ⟨Int.fract_nonneg _, Int.fract_lt_one _⟩

/-- The complementary hue is a `% 1.0` value in both branches, hence in [0, 1). -/
theorem complementaryHue_mem (h : ℚ) (n i : ℕ) :
    0 ≤ complementaryHue h n i ∧ complementaryHue h n i < 1 := by
  unfold complementaryHue
  split <;> exact ⟨Int.fract_nonneg _, Int.fract_lt_one _⟩

/-- The triadic hue is the base hue or a `% 1.0` value, hence in [0, 1). -/
theorem triadicHue_mem (h : ℚ) (i : ℕ) (hh0 : 0 ≤ h) (hh1 : h < 1) :
    0 ≤ triadicHue h i ∧ triadicHue h i < 1 := by
  unfold triadicHue
  split_ifs <;> first
    | exact ⟨hh0, hh1⟩
    | exact ⟨Int.fract_nonneg _, Int.fract_lt_one _⟩

/-- The tetradic hue is the base hue or a `% 1.0` value, hence in [0, 1). -/
theorem tetradicHue_mem (h : ℚ) (i : ℕ) (hh0 : 0 ≤ h) (hh1 : h < 1) :
    0 ≤ tetradicHue h i ∧ tetradicHue h i < 1 := by
  unfold tetradicHue
  split_ifs <;> first
    | exact ⟨hh0, hh1⟩
    | exact ⟨Int.fract_nonneg _, Int.fract_lt_one _⟩

/-- Clamp bounds for the monochromatic saturation rule. -/
theorem monoS_mem (s : ℚ) (n i : ℕ) : 0 ≤ monoS s n i ∧ monoS s n i ≤ 1 :=
  clampMem 0.1 1.0 (s * (0.5 + (i : ℚ) / (n : ℚ))) (by norm_num) (by norm_num) (by norm_num)

/-- Clamp bounds for the monochromatic value rule. -/
theorem monoV_mem (v : ℚ) (n i : ℕ) : 0 ≤ monoV v n i ∧ monoV v n i ≤ 1 :=
  clampMem 0.2 1.0 (v * (0.5 + (i : ℚ) / (n : ℚ))) (by norm_num) (by norm_num) (by norm_num)

/-- Clamp bounds for the complementary saturation rule. -/
theorem complementaryS_mem (s : ℚ) (n i : ℕ) :
    0 ≤ complementaryS s n i ∧ complementaryS s n i ≤ 1 := by
  unfold complementaryS
  split <;> exact clampMem 0.2 1.0 _ (by norm_num) (by norm_num) (by norm_num)

/-- Clamp bounds for the complementary value rule. -/
theorem complementaryV_mem (v : ℚ) (n i : ℕ) :
    0 ≤ complementaryV v n i ∧ complementaryV v n i ≤ 1 := by
  unfold complementaryV
  split <;> exact clampMem 0.3 1.0 _ (by norm_num) (by norm_num) (by norm_num)

/-- Clamp bounds for the triadic saturation rule. -/
theorem triadicS_mem (s : ℚ) (i : ℕ) : 0 ≤ triadicS s i ∧ triadicS s i ≤ 1 :=
  clampMem 0.3 1.0 _ (by norm_num) (by norm_num) (by norm_num)

/-- Clamp bounds for the triadic value rule. -/
theorem triadicV_mem (v : ℚ) (i : ℕ) : 0 ≤ triadicV v i ∧ triadicV v i ≤ 1 :=
  clampMem 0.4 1.0 _ (by norm_num) (by norm_num) (by norm_num)

/-- Clamp bounds for the tetradic saturation rule. -/
theorem tetradicS_mem (s : ℚ) (i : ℕ) : 0 ≤ tetradicS s i ∧ tetradicS s i ≤ 1 :=
  clampMem 0.3 1.0 _ (by norm_num) (by norm_num) (by norm_num)

/-- Clamp bounds for the tetradic value rule. -/
theorem tetradicV_mem (v : ℚ) (i : ℕ) : 0 ≤ tetradicV v i ∧ tetradicV v i ≤ 1 :=
  clampMem 0.4 1.0 _ (by norm_num) (by norm_num) (by norm_num)

/-- C9: for an in-range base color, a recognized palette type and any
`num_colors`, every color `generate_palette` returns has each RGB channel an
integer in [0, 255]: hues are wrapped into [0, 1), saturations and values
clamped into [0, 1], and `int(c*255)` maps back into range. -/
theorem palette_colors_in_range (base : Color) (rest : List Color) (t : PaletteType)
    (n : ℕ) (l : List Color) (hbase : inRangeColor base)
    (hgen : generate_palette (base :: rest) (PaletteSelector.enum t) n = Except.ok l) :
    ∀ c ∈ l, inRangeColor c := by
  have hhue := hsv_hue_mem base
  have hsv2 := color_hsv_sv_mem base hbase
  intro c hc
  cases t
  · simp only [generate_palette] at hgen
    injection hgen with hgen
    subst hgen
    obtain ⟨i, hi, rfl⟩ := List.mem_map.mp hc
    exact hsvToColor_mem _ _ _ hhue.1 (monoS_mem _ n i).1 (monoS_mem _ n i).2
      (monoV_mem _ n i).1 (monoV_mem _ n i).2
  · simp only [generate_palette] at hgen
    injection hgen with hgen
    subst hgen
    obtain ⟨i, hi, rfl⟩ := List.mem_map.mp hc
    exact hsvToColor_mem _ _ _ (analogousHue_mem _ n i).1 hsv2.1.1 hsv2.1.2
      hsv2.2.1 hsv2.2.2
  · simp only [generate_palette] at hgen
    injection hgen with hgen
    subst hgen
    obtain ⟨i, hi, rfl⟩ := List.mem_map.mp hc
    exact hsvToColor_mem _ _ _ (complementaryHue_mem _ n i).1
      (complementaryS_mem _ n i).1 (complementaryS_mem _ n i).2
      (complementaryV_mem _ n i).1 (complementaryV_mem _ n i).2
  · simp only [generate_palette] at hgen
    injection hgen with hgen
    subst hgen
    obtain ⟨i, hi, rfl⟩ := List.mem_map.mp hc
    exact hsvToColor_mem _ _ _ (triadicHue_mem _ i hhue.1 hhue.2).1
      (triadicS_mem _ i).1 (triadicS_mem _ i).2 (triadicV_mem _ i).1 (triadicV_mem _ i).2
  · simp only [generate_palette] at hgen
    injection hgen with hgen
    subst hgen
    obtain ⟨i, hi, rfl⟩ := List.mem_map.mp hc
    exact hsvToColor_mem _ _ _ (tetradicHue_mem _ i hhue.1 hhue.2).1
      (tetradicS_mem _ i).1 (tetradicS_mem _ i).2 (tetradicV_mem _ i).1 (tetradicV_mem _ i).2

/-- C9 witness: the color produced by the monochromatic rule on base
(255, 0, 0) with one output. -/
theorem palette_colors_in_range_witness : inRangeColor (⟨(127, 63, 63)⟩ : Color) := by
  have h1 : (⟨(255, 0, 0)⟩ : Color).hsv = (0, 1, 1) := by
    simp only [Color.hsv, Color.rgb_normalized, colorsys.rgb_to_hsv, max_def, min_def,
      Int.fract]
    norm_num
  have heval : generate_monochromatic ⟨(255, 0, 0)⟩ 1 = [⟨(127, 63, 63)⟩] := by
    simp only [generate_monochromatic, h1, monoS, monoV, hsvToColor, colorsys.hsv_to_rgb,
      pyint, List.range_succ]
    norm_num [max_def, min_def, Int.floor_eq_iff]
  exact palette_colors_in_range ⟨(255, 0, 0)⟩ [] PaletteType.MONOCHROMATIC 1 _ (by decide)
    rfl _ (by rw [heval]; exact List.mem_singleton.mpr rfl)

end ImageColorScheme
